import Mathlib

/-!
Verification of the gravity excerpt: the update-plan lookup helpers and the
election-enable phase executor (package `phases` / `update`), and the Helm
chart repository collaborator (`lib/helm/repo.go`).

Go functions returning `(value, error)` pairs are embedded as `Except Err α`
when callers only inspect the error before using the value, and as literal
pairs `Option α × Option Err` where the source inspects the two components
independently (as `update.GetOperationPlan` does with the plan pointer).
External collaborators (the storage backend, the package service, the planet
command runner, library parsers) are structures of function fields, so every
theorem quantifies over their behaviour.
-/

set_option autoImplicit false

/-- Errors of the `trace` package, by classification. `trace.Wrap` with a
format message is the `wrapped` constructor; classification predicates such
as `trace.IsNotFound` look through wrapping at the original error. -/
inductive Err where
  | notFound (msg : String)
  | badParameter (msg : String)
  | alreadyExists (msg : String)
  | connectionProblem (msg : String)
  | runtimePanic (msg : String)
  | other (msg : String)
  | wrapped (inner : Err) (msg : String)
  deriving DecidableEq, Repr

/-- trace.IsNotFound: true for a NotFound error, looking through wrapping. -/
def Err.isNotFound : Err → Bool
  | .notFound _ => true
  | .wrapped e _ => e.isNotFound
  | _ => false

/-- Transient-error predicate of the retry helper (network/connection
classes are retriable, everything else is not), looking through wrapping. -/
def Err.isTransient : Err → Bool
  | .connectionProblem _ => true
  | .wrapped e _ => e.isTransient
  | _ => false

/-- trace.Wrap without a message: annotates the error with a stack trace,
preserving its classification and message, hence the identity here. -/
def traceWrap (e : Err) : Err := e

/-- storage.SiteOperation: the fields `update.GetOperationPlan` reads. -/
structure Operation where
  opType : String
  siteDomain : String
  id : String
  deriving DecidableEq, Repr

/-- storage.Server: the fields the election phase reads. -/
structure Server where
  advertiseIP : String
  hostname : String
  clusterRole : String
  deriving DecidableEq, Repr

/-- Phase states of the plan FSM. -/
inductive PhaseState where
  | unstarted
  | inProgress
  | completed
  | failed
  | rolledBack
  deriving DecidableEq, Repr

/-- A phase of an operation plan, flattened to the fields resolution needs:
its stable ID and its current state. -/
structure PhaseEntry where
  id : String
  state : PhaseState
  deriving DecidableEq, Repr

/-- storage.OperationPlan: the fields read by the functions under study. -/
structure OperationPlan where
  operationID : String
  clusterName : String
  phases : List PhaseEntry
  servers : List Server
  deriving DecidableEq, Repr

/-- storage.PlanChange: a changelog entry recording a phase-state
transition, keyed by phase ID. -/
structure ChangelogEntry where
  phaseID : String
  newState : PhaseState
  deriving DecidableEq, Repr

/-- Last changelog entry recorded for a given phase ID (entries listed in
append order, so the last match is the most recent transition). -/
def lastEntryFor (changelog : List ChangelogEntry) (id : String) : Option ChangelogEntry :=
  (changelog.filter (fun e => e.phaseID == id)).getLast?

/-- Modelled from the spec: `fsm.ResolvePlan` is not part of this excerpt.
Per the spec (section 4.1) it is a pure, deterministic fold of the changelog
onto the base plan: for each phase, the last changelog entry carrying that
phase's ID overrides the phase's state; a phase with no matching entry keeps
its base state, and an empty changelog returns the base plan unchanged. -/
def ResolvePlan (plan : OperationPlan) (changelog : List ChangelogEntry) : OperationPlan :=
  { plan with
    phases := plan.phases.map (fun ph =>
      match lastEntryFor changelog ph.id with
      | some e => { ph with state := e.newState }
      | none => ph) }

/-- storage.Backend, restricted to the contract surface used by
`update.GetOperationPlan`. The plan lookup keeps Go's full
`(*OperationPlan, error)` pair because the source inspects the pointer and
the error independently; the other two are only inspected error-first. -/
structure Backend where
  getLastOperation : Except Err Operation
  getOperationPlan : String → String → Option OperationPlan × Option Err
  getOperationPlanChangelog : String → String → Except Err (List ChangelogEntry)

/-- Message of the NotFound error raised for an operation without a stored
plan, directing the operator at `gravity plan --init`. -/
def planMissingMsg (opType : String) : String :=
  "\"" ++ opType ++ "\" does not have a plan, use \x27gravity plan --init\x27 to initialize it"

/-- The tail of `update.GetOperationPlan` after the error-classification
check on the plan lookup: a nil plan becomes the NotFound "--init" guidance,
otherwise the changelog is fetched and folded onto the base plan. -/
def planOrInit (b : Backend) (op : Operation) (plan : Option OperationPlan) : Except Err OperationPlan :=
  match plan with
  | none => .error (.notFound (planMissingMsg op.opType))
  | some p =>
    match b.getOperationPlanChangelog op.siteDomain op.id with
    | .error e => .error (traceWrap e)
    | .ok changelog => .ok (ResolvePlan p changelog)

/-- update.GetOperationPlan: locate the last operation, fetch its stored
plan (tolerating only NotFound from that lookup), refuse a missing plan with
the "--init" NotFound error, and return the changelog-resolved plan. -/
def GetOperationPlan (b : Backend) : Except Err OperationPlan :=
  match b.getLastOperation with
  | .error e => .error (traceWrap e)
  | .ok op =>
    match b.getOperationPlan op.siteDomain op.id with
    | (plan, some e) =>
      if e.isNotFound then planOrInit b op plan else .error (traceWrap e)
    | (plan, none) => planOrInit b op plan

/-- schema.ServiceRoleMaster as a string, the form the executor compares
cluster roles against. -/
def ServiceRoleMaster : String := "master"

/-- schema.ServiceRoleNode as a string. -/
def ServiceRoleNode : String := "node"

/-- storage.OperationPhaseData: the (possibly absent) payload of a phase;
the executor factory only inspects its bound server. -/
structure PhaseData where
  server : Option Server
  deriving DecidableEq, Repr

/-- storage.OperationPhase restricted to the fields the factory reads: the
phase ID and the optional data payload. -/
structure Phase where
  id : String
  data : Option PhaseData
  deriving DecidableEq, Repr

/-- fsm.ExecutorParams: the phase being executed together with the plan it
belongs to (progress reporting and logging carry no result-relevant state
and are omitted). -/
structure ExecutorParams where
  phase : Phase
  plan : OperationPlan
  deriving DecidableEq, Repr

/-- The election-enable executor: it carries only its construction
parameters (the embedded logger is not result-relevant). -/
structure enableElectionExecutor where
  params : ExecutorParams
  deriving DecidableEq, Repr

/-- phases.NewEnableElectionPhase: reject a phase whose data payload or
bound server is absent with BadParameter "server is required"; otherwise
return the executor. -/
def NewEnableElectionPhase (p : ExecutorParams) : Except Err enableElectionExecutor :=
  match p.phase.data with
  | none => .error (.badParameter "server is required")
  | some d =>
    match d.server with
    | none => .error (.badParameter "server is required")
    | some _ => .ok { params := p }

/-- Modelled from the spec: the exponential backoff policy value
(`backoff.NewExponentialBackOff` of the vendored backoff library, outside
this excerpt), parameterized by initial interval, interval cap, and maximum
elapsed time, all in milliseconds, with multiplier 1.5. -/
structure ExponentialBackOff where
  initialInterval : Nat
  maxInterval : Nat
  maxElapsedTime : Nat
  deriving DecidableEq, Repr

/-- Modelled from the spec: the library defaults of the exponential backoff
(500ms initial interval, 60s interval cap, 15min default elapsed budget;
callers override the budget). -/
def NewExponentialBackOff : ExponentialBackOff :=
  { initialInterval := 500, maxInterval := 60000, maxElapsedTime := 900000 }

/-- Modelled from the spec: `defaults.ElectionWaitTimeout` (lib/defaults is
outside this excerpt), the fixed wait budget the election phase bounds its
retries with, in milliseconds. -/
def ElectionWaitTimeout : Nat := 60000

/-- Next backoff interval: multiply by 1.5, capped at the maximum
interval. -/
def nextInterval (b : ExponentialBackOff) (interval : Nat) : Nat :=
  min b.maxInterval (interval * 3 / 2)

/-- Modelled from the spec: the retry loop of `utils.RetryTransient`
(lib/utils is outside this excerpt). The attempted operation is a function
of the attempt number; a transient failure is retried after the current
backoff interval as long as the accumulated elapsed time stays within the
budget, a non-transient failure or an exhausted budget returns the failure,
and success returns none. The fuel argument bounds the recursion; the
top-level wrapper supplies enough fuel that the budget, not the fuel, is
what stops the loop. -/
def retryAux (b : ExponentialBackOff) (f : Nat → Option Err) :
    Nat → Nat → Nat → Nat → Option Err
  | 0, attempt, _, _ => f attempt
  | fuel + 1, attempt, elapsed, interval =>
    match f attempt with
    | none => none
    | some e =>
      if e.isTransient = false then some e
      else if b.maxElapsedTime < elapsed + interval then some e
      else retryAux b f fuel (attempt + 1) (elapsed + interval) (nextInterval b interval)

/-- Modelled from the spec: `utils.RetryTransient` entry point — retry the
operation under the given backoff policy, starting from attempt 0 with no
elapsed time and the initial interval. -/
def RetryTransient (b : ExponentialBackOff) (f : Nat → Option Err) : Option Err :=
  retryAux b f (b.maxElapsedTime / b.initialInterval + 1) 0 0 b.initialInterval

/-- Attempt numbers the retry loop can ever consult under policy `b`. -/
def retryAttemptBound (b : ExponentialBackOff) : Nat :=
  b.maxElapsedTime / b.initialInterval + 1

/-- The backoff value the election executor builds per master: library
defaults with the maximum elapsed time set to the election wait timeout. -/
def electionBackOff : ExponentialBackOff :=
  { NewExponentialBackOff with maxElapsedTime := ElectionWaitTimeout }

/-- The planet command runner collaborator (`utils.RunPlanetCommand`): maps
the argument vector and the attempt number of the invocation to the raw
output and an optional error. -/
structure CmdEnv where
  runPlanetCommand : List String → Nat → String × Option Err

/-- Argument vector `resumeLeader` passes to the planet command runner. -/
def planetLeaderResumeArgs (clusterName : String) (server : Server) : List String :=
  ["leader", "resume",
   "--public-ip=" ++ server.advertiseIP,
   "--election-key=/planet/cluster/" ++ clusterName ++ "/election",
   "--etcd-cafile=/var/state/root.cert",
   "--etcd-certfile=/var/state/etcd.cert",
   "--etcd-keyfile=/var/state/etcd.key"]

/-- enableElectionExecutor.resumeLeader: run the planet leader-resume
command against the given master; on failure wrap the command error with
the master's advertise IP and the raw output, on success return none. -/
def enableElectionExecutor.resumeLeader (env : CmdEnv) (p : enableElectionExecutor)
    (server : Server) (attempt : Nat) : Option Err :=
  match env.runPlanetCommand (planetLeaderResumeArgs p.params.plan.clusterName server) attempt with
  | (out, some e) =>
    some (.wrapped e ("failed to enable election for master " ++ server.advertiseIP ++
      ". reason: " ++ out))
  | (_, none) => none

/-- The server loop of enableElectionExecutor.Execute: masters get a
retried leader-resume whose first exhausted failure is returned wrapped;
every other server is skipped. -/
def executeLoop (env : CmdEnv) (p : enableElectionExecutor) : List Server → Except Err Unit
  | [] => .ok ()
  | server :: rest =>
    if server.clusterRole = ServiceRoleMaster then
      match RetryTransient electionBackOff (p.resumeLeader env server) with
      | some e => .error (traceWrap e)
      | none => executeLoop env p rest
    else executeLoop env p rest

/-- enableElectionExecutor.Execute: iterate the plan's servers through the
retry loop. -/
def enableElectionExecutor.Execute (env : CmdEnv) (p : enableElectionExecutor) : Except Err Unit :=
  executeLoop env p p.params.plan.servers

/-- context.Context, reduced to the cancellation flag (none of the modelled
functions inspect it, exactly as the three no-op methods ignore theirs). -/
structure Context where
  cancelled : Bool
  deriving DecidableEq, Repr

/-- enableElectionExecutor.Rollback: a no-op. -/
def enableElectionExecutor.Rollback (_p : enableElectionExecutor) (_ctx : Context) :
    Except Err Unit := .ok ()

/-- enableElectionExecutor.PreCheck: a no-op. -/
def enableElectionExecutor.PreCheck (_p : enableElectionExecutor) (_ctx : Context) :
    Except Err Unit := .ok ()

/-- enableElectionExecutor.PostCheck: a no-op. -/
def enableElectionExecutor.PostCheck (_p : enableElectionExecutor) (_ctx : Context) :
    Except Err Unit := .ok ()

/-- fsm.PhaseExecutor: the four-method contract the engine invokes
uniformly. -/
structure PhaseExecutor where
  preCheck : Context → Except Err Unit
  execute : Context → Except Err Unit
  postCheck : Context → Except Err Unit
  rollback : Context → Except Err Unit

/-- The election executor seen through the four-method contract. -/
def enableElectionExecutor.asPhaseExecutor (env : CmdEnv) (p : enableElectionExecutor) :
    PhaseExecutor :=
  { preCheck := p.PreCheck
    execute := fun _ctx => p.Execute env
    postCheck := p.PostCheck
    rollback := p.Rollback }

/-- loc.Locator: a package address (repository, name, version). -/
structure Locator where
  repository : String
  name : String
  version : String
  deriving DecidableEq, Repr

/-- The fixed locator of the serialized chart index package. -/
def indexLoc : Locator := { repository := "charts", name := "index", version := "0.0.1" }

/-- Chart metadata as read from a chart archive (the fields
`addToIndex` uses). -/
structure ChartMeta where
  name : String
  version : String
  deriving DecidableEq, Repr

/-- The chart index, flattened to its (chart name, chart version) entries. -/
structure IndexFile where
  entries : List (String × String)
  deriving DecidableEq, Repr

/-- repo.NewIndexFile: an empty index. -/
def repoNewIndexFile : IndexFile := { entries := [] }

/-- repo.IndexFile.Has: whether the index holds the given chart version. -/
def IndexFile.has (i : IndexFile) (name version : String) : Bool :=
  i.entries.contains (name, version)

/-- repo.IndexFile.Add: record a chart entry (download filename, base URL
and digest are stored by the library but never read back by this code). -/
def IndexFile.add (i : IndexFile) (chart : ChartMeta)
    (_filename _baseURL _digest : String) : IndexFile :=
  { entries := (chart.name, chart.version) :: i.entries }

/-- Ordering of index entries by chart name, then version. -/
def entryLe (a b : String × String) : Bool :=
  if a.1 = b.1 then decide (compare a.2 b.2 ≠ Ordering.gt)
  else decide (compare a.1 b.1 = Ordering.lt)

/-- Insertion step of the entry sort. -/
def insertEntry (e : String × String) : List (String × String) → List (String × String)
  | [] => [e]
  | x :: xs => if entryLe e x then e :: x :: xs else x :: insertEntry e xs

/-- Insertion sort of index entries. -/
def sortEntriesList : List (String × String) → List (String × String)
  | [] => []
  | x :: xs => insertEntry x (sortEntriesList xs)

/-- repo.IndexFile.SortEntries: sort the entries by name and version. -/
def IndexFile.sortEntries (i : IndexFile) : IndexFile :=
  { entries := sortEntriesList i.entries }

/-- pack.PackageService, the collaborator behind the chart repository,
restricted to the methods repo.go calls; package payloads are byte strings. -/
structure PackageService where
  readPackage : Locator → Except Err String
  createPackage : Locator → String → Option Err
  upsertPackage : Locator → String → Option Err
  deletePackage : Locator → Option Err
  portalURL : String

/-- External library collaborators of repo.go: locator construction
(lib/loc), chart archive loading (helm chartutil), digest computation
(helm provenance), and index serialization (ghodss/yaml). -/
structure HelmEnv where
  newLocator : String → String → String → Except Err Locator
  loadArchive : String → Except Err ChartMeta
  provenanceDigest : String → Except Err String
  yamlMarshal : IndexFile → Except Err String

/-- The InvalidUnmarshalError encoding/json raises for a nil destination
pointer. -/
def invalidUnmarshalErr : Err := .badParameter "json: Unmarshal(nil *repo.IndexFile)"

/-- Semantics of the `yaml.Unmarshal(data, indexFile)` call in
clusterRepository.getIndexFile, where `indexFile` is the typed nil
`*repo.IndexFile` declared on the preceding line: ghodss/yaml delegates to
encoding/json, which rejects a nil destination pointer with an
InvalidUnmarshalError before examining the payload, leaving the pointer
nil. -/
def yamlUnmarshalIntoNilIndex (_data : String) : Option Err := some invalidUnmarshalErr

/-- clusterRepository.getIndexFile: read the index package, then unmarshal
its payload into the nil index pointer; the result pointer (`Option`) is
returned only when unmarshalling reports no error. -/
def getIndexFile (ps : PackageService) : Except Err (Option IndexFile) :=
  match ps.readPackage indexLoc with
  | .error e => .error (traceWrap e)
  | .ok data =>
    match yamlUnmarshalIntoNilIndex data with
    | some e => .error (traceWrap e)
    | none => .ok none

/-- clusterRepository.digest: re-read the chart package and compute its
provenance digest. -/
def digest (env : HelmEnv) (ps : PackageService) (locator : Locator) : Except Err String :=
  match ps.readPackage locator with
  | .error e => .error (traceWrap e)
  | .ok data =>
    match env.provenanceDigest data with
    | .error e => .error (traceWrap e)
    | .ok d => .ok d

/-- The tail of clusterRepository.addToIndex once an index value is in
hand: duplicate check, entry insertion and sort, serialization, upsert of
the index package. -/
def addToIndexUpsert (env : HelmEnv) (ps : PackageService) (chart : ChartMeta)
    (dg : String) (indexFile : IndexFile) : Option Err :=
  if indexFile.has chart.name chart.version then
    some (.alreadyExists ("chart " ++ chart.name ++ ":" ++ chart.version ++ " already exists"))
  else
    let idx2 := (indexFile.add chart (chart.name ++ "-" ++ chart.version ++ ".tgz")
      (ps.portalURL ++ "/charts") dg).sortEntries
    match env.yamlMarshal idx2 with
    | .error e => some (traceWrap e)
    | .ok data =>
      match ps.upsertPackage indexLoc data with
      | some e => some (traceWrap e)
      | none => none

/-- clusterRepository.addToIndex (the body runs under the repository mutex,
held from entry to return; the lock has no effect on the computed value and
is captured separately by the action traces below): read the chart package,
load its metadata, compute its digest, fetch the index (tolerating only
NotFound, which starts a fresh index), and upsert the updated index. A nil
index returned without error would make the subsequent method call on it
panic. -/
def addToIndex (env : HelmEnv) (ps : PackageService) (locator : Locator) : Option Err :=
  match ps.readPackage locator with
  | .error e => some (traceWrap e)
  | .ok pkgData =>
    match env.loadArchive pkgData with
    | .error e => some (traceWrap e)
    | .ok chart =>
      match digest env ps locator with
      | .error e => some (traceWrap e)
      | .ok dg =>
        match getIndexFile ps with
        | .error e =>
          if e.isNotFound = false then some (traceWrap e)
          else addToIndexUpsert env ps chart dg repoNewIndexFile
        | .ok none => some (.runtimePanic "nil pointer dereference")
        | .ok (some idx) => addToIndexUpsert env ps chart dg idx

/-- Removal of the first entry matching the chart name and version. -/
def removeEntry (n v : String) : List (String × String) → List (String × String)
  | [] => []
  | e :: rest => if e.1 = n ∧ e.2 = v then rest else e :: removeEntry n v rest

/-- clusterRepository.removeFromIndex (body under the repository mutex,
captured separately by the action traces below): fetch the index
(propagating every error, NotFound included), drop the matching entry,
serialize and upsert. A nil index returned without error would make the
iteration over its entries panic. -/
def removeFromIndex (env : HelmEnv) (ps : PackageService)
    (chartName chartVersion : String) : Option Err :=
  match getIndexFile ps with
  | .error e => some (traceWrap e)
  | .ok none => some (.runtimePanic "nil pointer dereference")
  | .ok (some idx) =>
    let idx2 : IndexFile := { entries := removeEntry chartName chartVersion idx.entries }
    match env.yamlMarshal idx2 with
    | .error e => some (traceWrap e)
    | .ok data =>
      match ps.upsertPackage indexLoc data with
      | some e => some (traceWrap e)
      | none => none

/-- clusterRepository.PutChart: build the chart locator, create the chart
package, then add it to the index. -/
def PutChart (env : HelmEnv) (ps : PackageService)
    (name version chartData : String) : Option Err :=
  match env.newLocator "charts" name version with
  | .error e => some (traceWrap e)
  | .ok locator =>
    match ps.createPackage locator chartData with
    | some e => some (traceWrap e)
    | none =>
      match addToIndex env ps locator with
      | some e => some (traceWrap e)
      | none => none

/-- clusterRepository.DeleteChart: build the chart locator, remove the
entry from the index, then delete the chart package. -/
def DeleteChart (env : HelmEnv) (ps : PackageService)
    (chartName chartVersion : String) : Option Err :=
  match env.newLocator "charts" chartName chartVersion with
  | .error e => some (traceWrap e)
  | .ok locator =>
    match removeFromIndex env ps chartName chartVersion with
    | some e => some (traceWrap e)
    | none =>
      match ps.deletePackage locator with
      | some e => some (traceWrap e)
      | none => none

/-- Events of a chart-repository method relevant to locking discipline:
mutex acquire/release, package-service and chart-library I/O, and the pure
in-memory index mutation. -/
inductive RepoAction where
  | lock
  | unlock
  | readPkg
  | upsertPkg
  | loadChartArchive
  | computeDigest
  | indexMutate
  deriving DecidableEq, Repr

/-- Whether an action is an I/O call (package reads/writes, archive
loading, digest computation over package contents) as opposed to the pure
index mutation or the lock operations themselves. -/
def RepoAction.isIoAction : RepoAction → Bool
  | .readPkg => true
  | .upsertPkg => true
  | .loadChartArchive => true
  | .computeDigest => true
  | _ => false

/-- Event order of clusterRepository.addToIndex: Lock (with deferred
Unlock), ReadPackage of the chart, chartutil.LoadArchive, the digest
re-read of the chart package and provenance digest, ReadPackage of the
index inside getIndexFile, the in-memory Add/SortEntries mutation, and the
UpsertPackage of the serialized index, all before the deferred Unlock. -/
def addToIndexActions : List RepoAction :=
  [.lock, .readPkg, .loadChartArchive, .readPkg, .computeDigest, .readPkg,
   .indexMutate, .upsertPkg, .unlock]

/-- Event order of clusterRepository.removeFromIndex: Lock (with deferred
Unlock), ReadPackage of the index inside getIndexFile, the in-memory entry
removal, and the UpsertPackage of the serialized index before the deferred
Unlock. -/
def removeFromIndexActions : List RepoAction :=
  [.lock, .readPkg, .indexMutate, .upsertPkg, .unlock]

/-- Scan of an action trace tracking lock depth: true when some I/O action
occurs while the mutex is held. -/
def ioUnderLockAux : List RepoAction → Nat → Bool
  | [], _ => false
  | a :: rest, depth =>
    match a with
    | .lock => ioUnderLockAux rest (depth + 1)
    | .unlock => ioUnderLockAux rest (depth - 1)
    | _ => (a.isIoAction && decide (0 < depth)) || ioUnderLockAux rest depth

/-- Whether the trace performs any I/O call while holding the mutex. -/
def ioHeldUnderLock (tr : List RepoAction) : Bool := ioUnderLockAux tr 0

/-- schema.NodeProfile, restricted to its name (the only field read). -/
structure NodeProfile where
  name : String
  deriving DecidableEq, Repr

/-- schema.Manifest, as the lookup surface the update helpers use: node
profile by name, runtime package of a profile, and dependency package by
name. Each lookup either yields a package locator/profile or an error. -/
structure Manifest where
  nodeProfileByName : String → Except Err NodeProfile
  runtimePackage : NodeProfile → Except Err Locator
  dependencyByName : String → Except Err Locator

/-- app.Application, restricted to its manifest. -/
structure Application where
  manifest : Manifest

/-- A parsed semantic version (coreos/go-semver), with the prerelease tag
kept as one string. -/
structure SemVer where
  major : Nat
  minor : Nat
  patch : Nat
  preRelease : String
  deriving DecidableEq, Repr

/-- semver.Version.LessThan: numeric comparison of major, minor, patch;
on a tie a release outranks any prerelease and prerelease tags are ordered
by comparison (segment-wise numeric refinement of the library is collapsed
to whole-string comparison, which no statement below depends on). -/
def SemVer.lessThan (a b : SemVer) : Bool :=
  if a.major ≠ b.major then decide (a.major < b.major)
  else if a.minor ≠ b.minor then decide (a.minor < b.minor)
  else if a.patch ≠ b.patch then decide (a.patch < b.patch)
  else if a.preRelease = b.preRelease then false
  else if a.preRelease = "" then false
  else if b.preRelease = "" then true
  else decide (a.preRelease < b.preRelease)

/-- The semantic-version parser behind loc.Locator.SemVer, applied to a
locator's version string. -/
structure VersionEnv where
  parseSemVer : String → Except Err SemVer

/-- constants.TeleportPackage. -/
def TeleportPackage : String := "teleport"

/-- loc.LegacyPlanetMaster (lib/loc is outside this excerpt; only the
package name is read by the code under study). -/
def LegacyPlanetMaster : Locator :=
  { repository := "gravitational.io", name := "planet-master", version := "0.0.0" }

/-- loc.LegacyPlanetNode (lib/loc is outside this excerpt; only the package
name is read by the code under study). -/
def LegacyPlanetNode : Locator :=
  { repository := "gravitational.io", name := "planet-node", version := "0.0.0" }

/-- The legacy planet package name chosen by cluster role in
getRuntimePackage: the node package for the node role, the master package
otherwise. -/
def legacyRuntimePackageName (clusterRole : String) : String :=
  if clusterRole = ServiceRoleNode then LegacyPlanetNode.name else LegacyPlanetMaster.name

/-- update.getRuntimePackage: the manifest's runtime package for the
profile when that lookup succeeds; a non-NotFound error is propagated; on
NotFound, fall back to the role-selected legacy planet package among the
manifest's dependencies, reporting NotFound when that is absent too. -/
def getRuntimePackage (manifest : Manifest) (profile : NodeProfile)
    (clusterRole : String) : Except Err Locator :=
  match manifest.runtimePackage profile with
  | .ok runtimePackage => .ok runtimePackage
  | .error e =>
    if e.isNotFound = false then .error (traceWrap e)
    else
      match manifest.dependencyByName (legacyRuntimePackageName clusterRole) with
      | .error _ => .error (.notFound ("runtime package for profile " ++ profile.name ++
          " (cluster role " ++ clusterRole ++ ") not found in manifest"))
      | .ok runtimePackage => .ok runtimePackage

/-- Error propagation of a Go early return `if err != nil { return ...,
trace.Wrap(err) }` around a fallible call. -/
def wrapE {α : Type} : Except Err α → Except Err α
  | .error e => .error (traceWrap e)
  | .ok a => .ok a

/-- update.systemNeedsUpdate: resolve both node profiles, the update
runtime package and version, the installed runtime package (through
getRuntimePackage with the master role) and version, both teleport
dependency packages and versions, propagating the first error; on full
success report whether the installed runtime and teleport versions are
strictly below the update versions. -/
def systemNeedsUpdate (venv : VersionEnv) (profile : String)
    (installed updateApp : Application) : Except Err (Bool × Bool) := do
  let installedProfile ← wrapE (installed.manifest.nodeProfileByName profile)
  let updateProfile ← wrapE (updateApp.manifest.nodeProfileByName profile)
  let updateRuntimePackage ← wrapE (updateApp.manifest.runtimePackage updateProfile)
  let updateRuntimeVersion ← wrapE (venv.parseSemVer updateRuntimePackage.version)
  let installedRuntimePackage ← wrapE
    (getRuntimePackage installed.manifest installedProfile ServiceRoleMaster)
  let installedRuntimeVersion ← wrapE (venv.parseSemVer installedRuntimePackage.version)
  let installedTeleportPackage ← wrapE (installed.manifest.dependencyByName TeleportPackage)
  let installedTeleportVersion ← wrapE (venv.parseSemVer installedTeleportPackage.version)
  let updateTeleportPackage ← wrapE (updateApp.manifest.dependencyByName TeleportPackage)
  let updateTeleportVersion ← wrapE (venv.parseSemVer updateTeleportPackage.version)
  return (installedRuntimeVersion.lessThan updateRuntimeVersion,
    installedTeleportVersion.lessThan updateTeleportVersion)

/-! Concrete fixtures used by the witness theorems below. -/

def opW : Operation := { opType := "operation_update", siteDomain := "example.com", id := "op-1" }

def planW : OperationPlan :=
  { operationID := "op-1", clusterName := "example",
    phases := [{ id := "/init", state := .unstarted }], servers := [] }

def changelogW : List ChangelogEntry := [{ phaseID := "/init", newState := .completed }]

def backendNoPlanW : Backend :=
  { getLastOperation := .ok opW
    getOperationPlan := fun _ _ => (none, some (.notFound "plan not found"))
    getOperationPlanChangelog := fun _ _ => .ok [] }

def backendOkW : Backend :=
  { getLastOperation := .ok opW
    getOperationPlan := fun _ _ => (some planW, none)
    getOperationPlanChangelog := fun _ _ => .ok changelogW }

def serverMasterW : Server :=
  { advertiseIP := "10.0.0.1", hostname := "node-1", clusterRole := "master" }

def cmdFailEnvW : CmdEnv :=
  { runPlanetCommand := fun _ _ => ("", some (.connectionProblem "connection refused")) }

def execW : enableElectionExecutor :=
  { params :=
    { phase := { id := "/elect", data := some { server := some serverMasterW } }
      plan := { operationID := "op-1", clusterName := "example", phases := [],
                servers := [serverMasterW] } } }

def resumeFailErrW : Err :=
  .wrapped (.connectionProblem "connection refused")
    "failed to enable election for master 10.0.0.1. reason: "

def chartMetaW : ChartMeta := { name := "nginx", version := "1.0.0" }

def chartLocW : Locator := { repository := "charts", name := "nginx", version := "1.0.0" }

def helmEnvW : HelmEnv :=
  { newLocator := fun r n v => .ok { repository := r, name := n, version := v }
    loadArchive := fun _ => .ok chartMetaW
    provenanceDigest := fun _ => .ok "sha256:abc"
    yamlMarshal := fun _ => .ok "serialized-index" }

def pkgServiceW : PackageService :=
  { readPackage := fun _ => .ok "package-bytes"
    createPackage := fun _ _ => none
    upsertPackage := fun _ _ => none
    deletePackage := fun _ => none
    portalURL := "https://portal.example.com" }

def venvW : VersionEnv :=
  { parseSemVer := fun s =>
      if s = "1.0.0" then .ok { major := 1, minor := 0, patch := 0, preRelease := "" }
      else if s = "2.0.0" then .ok { major := 2, minor := 0, patch := 0, preRelease := "" }
      else if s = "3.0.0" then .ok { major := 3, minor := 0, patch := 0, preRelease := "" }
      else if s = "3.1.0" then .ok { major := 3, minor := 1, patch := 0, preRelease := "" }
      else .error (.badParameter ("bad version " ++ s)) }

def locPlanetOldW : Locator :=
  { repository := "gravitational.io", name := "planet", version := "1.0.0" }

def locPlanetNewW : Locator :=
  { repository := "gravitational.io", name := "planet", version := "2.0.0" }

def locTeleOldW : Locator :=
  { repository := "gravitational.io", name := "teleport", version := "3.0.0" }

def locTeleNewW : Locator :=
  { repository := "gravitational.io", name := "teleport", version := "3.1.0" }

def manifestInstalledW : Manifest :=
  { nodeProfileByName := fun n =>
      if n = "node" then .ok { name := "node" } else .error (.notFound "profile not found")
    runtimePackage := fun _ => .ok locPlanetOldW
    dependencyByName := fun n =>
      if n = "teleport" then .ok locTeleOldW else .error (.notFound "package not found") }

def manifestUpdateW : Manifest :=
  { nodeProfileByName := fun n =>
      if n = "node" then .ok { name := "node" } else .error (.notFound "profile not found")
    runtimePackage := fun _ => .ok locPlanetNewW
    dependencyByName := fun n =>
      if n = "teleport" then .ok locTeleNewW else .error (.notFound "package not found") }

def appInstalledW : Application := { manifest := manifestInstalledW }

def appUpdateW : Application := { manifest := manifestUpdateW }

def manifestLegacyW : Manifest :=
  { nodeProfileByName := fun _ => .error (.notFound "profile not found")
    runtimePackage := fun _ => .error (.notFound "runtime package not defined")
    dependencyByName := fun n =>
      if n = "planet-master" then .ok locPlanetOldW
      else .error (.notFound "package not found") }

def profileDbW : NodeProfile := { name := "db" }

/-- C1: when the last operation exists but the backend stores no plan for
it (the plan lookup yields a nil plan, with either no error or a NotFound
error), update.GetOperationPlan returns a NotFound error whose message
directs the operator at the --init flag; a plan-lookup error of any other
classification is propagated to the caller instead, keeping the NotFound
signal distinguishable from other errors. -/
theorem getOperationPlan_init_signal (b : Backend) (op : Operation)
    (hop : b.getLastOperation = .ok op) :
    ((b.getOperationPlan op.siteDomain op.id).1 = none →
      ((b.getOperationPlan op.siteDomain op.id).2 = none ∨
        (∃ e, (b.getOperationPlan op.siteDomain op.id).2 = some e ∧ e.isNotFound = true)) →
      (GetOperationPlan b = .error (.notFound (planMissingMsg op.opType))
        ∧ (Err.notFound (planMissingMsg op.opType)).isNotFound = true
        ∧ ∃ pre post, planMissingMsg op.opType = pre ++ "--init" ++ post))
    ∧ (∀ pl e, b.getOperationPlan op.siteDomain op.id = (pl, some e) →
        e.isNotFound = false →
        GetOperationPlan b = .error (traceWrap e)
          ∧ (traceWrap e).isNotFound = false) := by
  have hmsg : ∃ pre post, planMissingMsg op.opType = pre ++ "--init" ++ post := by
    refine ⟨"\"" ++ op.opType ++ "\" does not have a plan, use \x27gravity plan ",
      "\x27 to initialize it", ?_⟩
    simp only [planMissingMsg, String.append_assoc]
    congr 1
  constructor
  · intro h1 h2
    refine ⟨?_, rfl, hmsg⟩
    rcases hpe : b.getOperationPlan op.siteDomain op.id with ⟨pl, e?⟩
    rw [hpe] at h1 h2
    simp only at h1
    subst h1
    cases e? with
    | none => simp [GetOperationPlan, hop, hpe, planOrInit]
    | some e =>
      rcases h2 with h2 | ⟨e2, he2, hnf⟩
      · simp at h2
      · simp only at he2
        injection he2 with he2
        subst he2
        simp [GetOperationPlan, hop, hpe, hnf, planOrInit]
  · intro pl e hpe hnf
    refine ⟨?_, by simp [traceWrap, hnf]⟩
    simp [GetOperationPlan, hop, hpe, hnf]

/-- C1 witness: a backend whose plan lookup reports NotFound yields the
"--init" NotFound guidance. -/
theorem getOperationPlan_init_signal_witness :
    GetOperationPlan backendNoPlanW = .error (.notFound (planMissingMsg opW.opType))
      ∧ (Err.notFound (planMissingMsg opW.opType)).isNotFound = true
      ∧ ∃ pre post, planMissingMsg opW.opType = pre ++ "--init" ++ post :=
  (getOperationPlan_init_signal backendNoPlanW opW rfl).1 rfl
    (Or.inr ⟨.notFound "plan not found", rfl, rfl⟩)

/-- C2: update.GetOperationPlan locates the plan through the last
operation, propagating that lookup's error (NotFound included); on success
it fetches the plan and changelog for the operation's domain and ID and
returns the changelog-resolved plan ResolvePlan basePlan changelog — never
the raw base plan — propagating any error of the changelog fetch. -/
theorem getOperationPlan_resolves (b : Backend) :
    (∀ e, b.getLastOperation = .error e → GetOperationPlan b = .error (traceWrap e))
    ∧ (∀ op p, b.getLastOperation = .ok op →
        b.getOperationPlan op.siteDomain op.id = (some p, none) →
        (∀ cl, b.getOperationPlanChangelog op.siteDomain op.id = .ok cl →
          GetOperationPlan b = .ok (ResolvePlan p cl))
        ∧ (∀ e, b.getOperationPlanChangelog op.siteDomain op.id = .error e →
          GetOperationPlan b = .error (traceWrap e))) := by
  constructor
  · intro e he
    simp [GetOperationPlan, he]
  · intro op p hop hpe
    constructor
    · intro cl hcl
      simp [GetOperationPlan, hop, hpe, planOrInit, hcl]
    · intro e he
      simp [GetOperationPlan, hop, hpe, planOrInit, he]

/-- C2 witness: a backend holding a plan and a changelog yields the
resolved plan. -/
theorem getOperationPlan_resolves_witness :
    GetOperationPlan backendOkW = .ok (ResolvePlan planW changelogW) :=
  (((getOperationPlan_resolves backendOkW).2 opW planW rfl rfl).1 changelogW rfl)

/-- The retry loop consults the attempted operation only at attempt numbers
up to its fuel bound: its result is unchanged when two operations agree
there. -/
theorem retryAux_congr (b : ExponentialBackOff) (f g : Nat → Option Err) (bound : Nat)
    (h : ∀ n, n ≤ bound → f n = g n) :
    ∀ fuel attempt elapsed interval, fuel + attempt ≤ bound →
      retryAux b f fuel attempt elapsed interval =
        retryAux b g fuel attempt elapsed interval := by
  intro fuel
  induction fuel with
  | zero =>
    intro attempt elapsed interval hle
    simpa [retryAux] using h attempt (by omega)
  | succ n ih =>
    intro attempt elapsed interval hle
    simp only [retryAux, h attempt (by omega)]
    cases g attempt with
    | none => rfl
    | some e =>
      simp only
      split
      · rfl
      · split
        · rfl
        · exact ih (attempt + 1) _ _ (by omega)

/-- A uniformly transient-failing operation makes the retry loop return its
failure once the budget (or fuel) runs out. -/
theorem retryAux_const_fail (b : ExponentialBackOff) (f : Nat → Option Err) (e : Err)
    (he : e.isTransient = true) (hf : ∀ n, f n = some e) :
    ∀ fuel attempt elapsed interval, retryAux b f fuel attempt elapsed interval = some e := by
  intro fuel
  induction fuel with
  | zero => intro attempt _ _; simp [retryAux, hf attempt]
  | succ n ih =>
    intro attempt elapsed interval
    simp only [retryAux, hf attempt, he]
    simp only [Bool.true_eq_false, if_false]
    split
    · rfl
    · exact ih (attempt + 1) _ _

/-- A transient failure inside the budget advances the retry loop by one
attempt. -/
theorem retryAux_step (b : ExponentialBackOff) (f : Nat → Option Err)
    (fuel attempt elapsed interval : Nat) (e : Err)
    (hf : f attempt = some e) (ht : e.isTransient = true)
    (hb : ¬ b.maxElapsedTime < elapsed + interval) :
    retryAux b f (fuel + 1) attempt elapsed interval =
      retryAux b f fuel (attempt + 1) (elapsed + interval) (nextInterval b interval) := by
  simp [retryAux, hf, ht, hb]

/-- A successful attempt stops the retry loop. -/
theorem retryAux_stop (b : ExponentialBackOff) (f : Nat → Option Err)
    (fuel attempt elapsed interval : Nat) (hf : f attempt = none) :
    retryAux b f (fuel + 1) attempt elapsed interval = none := by
  simp [retryAux, hf]

/-- Non-master servers contribute nothing to the election-enable loop: the
loop's outcome over any server list equals its outcome over the masters
alone. -/
theorem executeLoop_skips_nonmasters (env : CmdEnv) (p : enableElectionExecutor) :
    ∀ servers : List Server,
      executeLoop env p servers =
        executeLoop env p (servers.filter (fun s => s.clusterRole == ServiceRoleMaster)) := by
  intro servers
  induction servers with
  | nil => rfl
  | cons s rest ih =>
    by_cases hs : s.clusterRole = ServiceRoleMaster
    · have hb : (s.clusterRole == ServiceRoleMaster) = true := by simp [hs]
      simp only [List.filter_cons, hb, if_true]
      simp only [executeLoop, if_pos hs]
      cases RetryTransient electionBackOff (p.resumeLeader env s) with
      | some e => rfl
      | none => exact ih
    · have hb : (s.clusterRole == ServiceRoleMaster) = false := by simp [hs]
      simp only [List.filter_cons, hb, Bool.false_eq_true, if_false]
      simp only [executeLoop, if_neg hs]
      exact ih

/-- C3: Execute wraps each per-master leader-resume command in the
exponential-backoff retry whose maximum elapsed time is the election wait
timeout; transient failures are retried under that bounded budget (the loop
consults only boundedly many attempts, and a failure within budget leads to
a further attempt), the wrapped error is returned as soon as one master's
retry budget is exhausted, and servers without the master role are skipped
entirely. -/
theorem enableElection_execute_retry (env : CmdEnv) (p : enableElectionExecutor) :
    electionBackOff.maxElapsedTime = ElectionWaitTimeout
    ∧ (∀ servers : List Server,
        executeLoop env p servers =
          executeLoop env p (servers.filter (fun s => s.clusterRole == ServiceRoleMaster)))
    ∧ (∀ server rest e, server.clusterRole = ServiceRoleMaster →
        RetryTransient electionBackOff (p.resumeLeader env server) = some e →
        executeLoop env p (server :: rest) = .error (traceWrap e))
    ∧ (∀ f g : Nat → Option Err,
        (∀ n, n ≤ retryAttemptBound electionBackOff → f n = g n) →
        RetryTransient electionBackOff f = RetryTransient electionBackOff g)
    ∧ (∀ (e : Err) (f : Nat → Option Err), e.isTransient = true → (∀ n, f n = some e) →
        RetryTransient electionBackOff f = some e)
    ∧ (∀ (e : Err) (f : Nat → Option Err), e.isTransient = true →
        f 0 = some e → f 1 = none →
        RetryTransient electionBackOff f = none) := by
  refine ⟨rfl, executeLoop_skips_nonmasters env p, ?_, ?_, ?_, ?_⟩
  · intro server rest e hs hr
    simp [executeLoop, hs, hr]
  · intro f g h
    unfold RetryTransient
    exact retryAux_congr electionBackOff f g (retryAttemptBound electionBackOff) h _ 0 0 _
      (by simp [retryAttemptBound])
  · intro e f he hf
    exact retryAux_const_fail electionBackOff f e he hf _ 0 0 _
  · intro e f he h0 h1
    show retryAux electionBackOff f (120 + 1) 0 0 500 = none
    rw [retryAux_step electionBackOff f 120 0 0 500 e h0 he (by decide)]
    exact retryAux_stop electionBackOff f 119 1 500 (nextInterval electionBackOff 500) h1

/-- C3 witness: with a command runner that always fails with a connection
problem, executing the phase over one master returns the wrapped failure
after the retry budget is exhausted. -/
theorem enableElection_execute_retry_witness :
    executeLoop cmdFailEnvW execW [serverMasterW] = .error (traceWrap resumeFailErrW) :=
  (enableElection_execute_retry cmdFailEnvW execW).2.2.1 serverMasterW [] resumeFailErrW rfl
    ((enableElection_execute_retry cmdFailEnvW execW).2.2.2.2.1 resumeFailErrW
      (execW.resumeLeader cmdFailEnvW serverMasterW) rfl (fun _ => rfl))

/-- C4: NewEnableElectionPhase returns the BadParameter error "server is
required" exactly when the phase's data payload is absent or its bound
server is absent; for every phase with a bound server it returns the
executor and no error (and performs no retries: the factory is a single
case analysis). -/
theorem newEnableElectionPhase_spec (p : ExecutorParams) :
    (NewEnableElectionPhase p = .error (.badParameter "server is required")
      ↔ (p.phase.data = none ∨ ∃ d, p.phase.data = some d ∧ d.server = none))
    ∧ (∀ d s, p.phase.data = some d → d.server = some s →
        NewEnableElectionPhase p = .ok { params := p }) := by
  constructor
  · constructor
    · intro h
      rcases hd : p.phase.data with _ | d
      · exact Or.inl rfl
      · rcases hs : d.server with _ | s
        · exact Or.inr ⟨d, rfl, hs⟩
        · simp [NewEnableElectionPhase, hd, hs] at h
    · intro h
      rcases h with h | ⟨d, hd, hs⟩
      · simp [NewEnableElectionPhase, h]
      · simp [NewEnableElectionPhase, hd, hs]
  · intro d s hd hs
    simp [NewEnableElectionPhase, hd, hs]

/-- C4 witness: a phase with a bound server yields the executor. -/
theorem newEnableElectionPhase_witness :
    NewEnableElectionPhase execW.params = .ok { params := execW.params } :=
  (newEnableElectionPhase_spec execW.params).2 { server := some serverMasterW }
    serverMasterW rfl rfl

/-- C5: resumeLeader returns nil exactly when the planet command succeeds;
when the command fails, the returned error is the command's error wrapped
with the target master's advertise IP and the raw command output, and the
output is never interpreted beyond pass/fail (a successful run returns nil
whatever the output). -/
theorem resumeLeader_spec (env : CmdEnv) (p : enableElectionExecutor)
    (server : Server) (attempt : Nat) :
    (∀ out,
      env.runPlanetCommand (planetLeaderResumeArgs p.params.plan.clusterName server) attempt
        = (out, none) →
      p.resumeLeader env server attempt = none)
    ∧ (∀ out e,
      env.runPlanetCommand (planetLeaderResumeArgs p.params.plan.clusterName server) attempt
        = (out, some e) →
      p.resumeLeader env server attempt = some (.wrapped e
        ("failed to enable election for master " ++ server.advertiseIP ++
          ". reason: " ++ out))) := by
  constructor
  · intro out h
    simp [enableElectionExecutor.resumeLeader, h]
  · intro out e h
    simp [enableElectionExecutor.resumeLeader, h]

/-- C5 witness: a failing command yields the wrapped error carrying the
master's advertise IP and the raw output. -/
theorem resumeLeader_spec_witness :
    execW.resumeLeader cmdFailEnvW serverMasterW 0 = some resumeFailErrW :=
  (resumeLeader_spec cmdFailEnvW execW serverMasterW 0).2 ""
    (.connectionProblem "connection refused") rfl

/-- C6: the election executor's PreCheck, PostCheck and Rollback return nil
for every context, while the executor still presents the full four-method
contract (its execute slot is the real Execute), so the engine can invoke
all four uniformly. -/
theorem enableElection_noop_checks (env : CmdEnv) (p : enableElectionExecutor) (ctx : Context) :
    (p.asPhaseExecutor env).preCheck ctx = .ok ()
    ∧ (p.asPhaseExecutor env).postCheck ctx = .ok ()
    ∧ (p.asPhaseExecutor env).rollback ctx = .ok ()
    ∧ (p.asPhaseExecutor env).execute ctx = p.Execute env :=
  ⟨rfl, rfl, rfl, rfl⟩

/-- C7 counterexample: in the chart repository the mutex is not held only
for the in-memory index mutation — both addToIndex and removeFromIndex
perform I/O calls (package reads, digest computation, index upsert) while
holding the lock. -/
theorem chartRepo_lock_not_io_free :
    ¬ (ioHeldUnderLock addToIndexActions = false
      ∧ ioHeldUnderLock removeFromIndexActions = false) := by
  decide

/-- C7 amended: the mutex in addToIndex and removeFromIndex is acquired at
entry and released at exit (the deferred unlock), and it is held across the
I/O calls of the body — the package reads, archive load, digest computation
and index upsert — not only for the in-memory index mutation. -/
theorem chartRepo_lock_held_across_io :
    ioHeldUnderLock addToIndexActions = true
    ∧ ioHeldUnderLock removeFromIndexActions = true
    ∧ addToIndexActions.head? = some .lock
    ∧ addToIndexActions.getLast? = some .unlock
    ∧ removeFromIndexActions.head? = some .lock
    ∧ removeFromIndexActions.getLast? = some .unlock := by
  decide

/-- C8: getIndexFile hands yaml.Unmarshal a nil index pointer, so for every
stored index payload it returns an error (non-NotFound) and never a non-nil
index; consequently, once an index package exists, addToIndex — and hence
PutChart of any further chart — and removeFromIndex — and hence DeleteChart
— always fail with a non-NotFound error. -/
theorem chartRepo_nil_unmarshal (env : HelmEnv) (ps : PackageService) :
    (∀ data, ps.readPackage indexLoc = .ok data →
      getIndexFile ps = .error (traceWrap invalidUnmarshalErr)
        ∧ (traceWrap invalidUnmarshalErr).isNotFound = false)
    ∧ (∀ r, getIndexFile ps = .ok r → r = none)
    ∧ (∀ locator pkgData chart dg idxData,
        ps.readPackage locator = .ok pkgData →
        env.loadArchive pkgData = .ok chart →
        digest env ps locator = .ok dg →
        ps.readPackage indexLoc = .ok idxData →
        ∃ e, addToIndex env ps locator = some e ∧ e.isNotFound = false)
    ∧ (∀ name version chartData locator pkgData chart dg idxData,
        env.newLocator "charts" name version = .ok locator →
        ps.createPackage locator chartData = none →
        ps.readPackage locator = .ok pkgData →
        env.loadArchive pkgData = .ok chart →
        digest env ps locator = .ok dg →
        ps.readPackage indexLoc = .ok idxData →
        ∃ e, PutChart env ps name version chartData = some e ∧ e.isNotFound = false)
    ∧ (∀ name version idxData, ps.readPackage indexLoc = .ok idxData →
        ∃ e, removeFromIndex env ps name version = some e ∧ e.isNotFound = false)
    ∧ (∀ name version locator idxData,
        env.newLocator "charts" name version = .ok locator →
        ps.readPackage indexLoc = .ok idxData →
        ∃ e, DeleteChart env ps name version = some e ∧ e.isNotFound = false) := by
  have hgif : ∀ data, ps.readPackage indexLoc = .ok data →
      getIndexFile ps = .error (traceWrap invalidUnmarshalErr) := by
    intro data h
    simp [getIndexFile, h, yamlUnmarshalIntoNilIndex]
  have hadd : ∀ locator pkgData chart dg idxData,
      ps.readPackage locator = .ok pkgData →
      env.loadArchive pkgData = .ok chart →
      digest env ps locator = .ok dg →
      ps.readPackage indexLoc = .ok idxData →
      addToIndex env ps locator = some invalidUnmarshalErr := by
    intro locator pkgData chart dg idxData h1 h2 h3 h4
    simp [addToIndex, h1, h2, h3, hgif idxData h4, traceWrap, invalidUnmarshalErr,
      Err.isNotFound]
  have hrem : ∀ name version idxData, ps.readPackage indexLoc = .ok idxData →
      removeFromIndex env ps name version = some invalidUnmarshalErr := by
    intro name version idxData h
    simp [removeFromIndex, hgif idxData h, traceWrap]
  refine ⟨?_, ?_, ?_, ?_, ?_, ?_⟩
  · intro data h
    exact ⟨hgif data h, by decide⟩
  · intro r h
    rcases hr : ps.readPackage indexLoc with e | data
    · simp [getIndexFile, hr] at h
    · simp [getIndexFile, hr, yamlUnmarshalIntoNilIndex] at h
  · intro locator pkgData chart dg idxData h1 h2 h3 h4
    exact ⟨invalidUnmarshalErr, hadd locator pkgData chart dg idxData h1 h2 h3 h4, by decide⟩
  · intro name version chartData locator pkgData chart dg idxData hnl hcr h1 h2 h3 h4
    refine ⟨invalidUnmarshalErr, ?_, by decide⟩
    simp [PutChart, hnl, hcr, hadd locator pkgData chart dg idxData h1 h2 h3 h4, traceWrap]
  · intro name version idxData h
    exact ⟨invalidUnmarshalErr, hrem name version idxData h, by decide⟩
  · intro name version locator idxData hnl h
    refine ⟨invalidUnmarshalErr, ?_, by decide⟩
    simp [DeleteChart, hnl, hrem name version idxData h, traceWrap]

/-- C8 witness: with an all-succeeding package service and helm library,
addToIndex of a concrete chart fails with a non-NotFound error. -/
theorem chartRepo_nil_unmarshal_witness :
    ∃ e, addToIndex helmEnvW pkgServiceW chartLocW = some e ∧ e.isNotFound = false :=
  (chartRepo_nil_unmarshal helmEnvW pkgServiceW).2.2.1 chartLocW "package-bytes" chartMetaW
    "sha256:abc" "package-bytes" rfl rfl rfl rfl

/-- The strict version comparison is irreflexive: equal versions never
report an update. -/
theorem semVer_lessThan_irrefl (v : SemVer) : v.lessThan v = false := by
  simp [SemVer.lessThan]

/-- The strict version comparison is asymmetric: a downgrade never reports
an update. -/
theorem semVer_lessThan_asymm (a b : SemVer) (h : a.lessThan b = true) :
    b.lessThan a = false := by
  unfold SemVer.lessThan at h ⊢
  by_cases h1 : a.major = b.major
  · rw [if_neg (by simp [h1])] at h
    rw [if_neg (by simp [h1])]
    by_cases h2 : a.minor = b.minor
    · rw [if_neg (by simp [h2])] at h
      rw [if_neg (by simp [h2])]
      by_cases h3 : a.patch = b.patch
      · rw [if_neg (by simp [h3])] at h
        rw [if_neg (by simp [h3])]
        by_cases p1 : a.preRelease = b.preRelease
        · rw [if_pos p1] at h
          exact absurd h (by simp)
        · rw [if_neg p1] at h
          rw [if_neg (fun hh => p1 hh.symm)]
          by_cases p2 : a.preRelease = ""
          · rw [if_pos p2] at h
            exact absurd h (by simp)
          · rw [if_neg p2] at h
            by_cases p3 : b.preRelease = ""
            · rw [if_pos p3]
            · rw [if_neg p3] at h
              rw [if_neg p3, if_neg p2]
              exact decide_eq_false (lt_asymm (of_decide_eq_true h))
      · rw [if_pos (by simp [h3])] at h
        rw [if_pos (fun hh => h3 hh.symm)]
        have hlt := of_decide_eq_true h
        exact decide_eq_false (by omega)
    · rw [if_pos (by simp [h2])] at h
      rw [if_pos (fun hh => h2 hh.symm)]
      have hlt := of_decide_eq_true h
      exact decide_eq_false (by omega)
  · rw [if_pos (by simp [h1])] at h
    rw [if_pos (fun hh => h1 hh.symm)]
    have hlt := of_decide_eq_true h
    exact decide_eq_false (by omega)

/-- C9: when the node-profile and package lookups and version parses all
succeed, systemNeedsUpdate reports planetNeedsUpdate exactly when the
installed runtime version is strictly below the update's and
teleportNeedsUpdate exactly when the installed teleport version is strictly
below the update's (the comparison is irreflexive and asymmetric, so equal
versions and downgrades yield false); a lookup or parse error is propagated
as the function's error result. -/
theorem systemNeedsUpdate_spec (venv : VersionEnv) (profile : String)
    (installed updateApp : Application) :
    (∀ installedProfile updateProfile updateRT installedRT installedTel updateTel
        uRTv iRTv iTelv uTelv,
      installed.manifest.nodeProfileByName profile = .ok installedProfile →
      updateApp.manifest.nodeProfileByName profile = .ok updateProfile →
      updateApp.manifest.runtimePackage updateProfile = .ok updateRT →
      venv.parseSemVer updateRT.version = .ok uRTv →
      getRuntimePackage installed.manifest installedProfile ServiceRoleMaster = .ok installedRT →
      venv.parseSemVer installedRT.version = .ok iRTv →
      installed.manifest.dependencyByName TeleportPackage = .ok installedTel →
      venv.parseSemVer installedTel.version = .ok iTelv →
      updateApp.manifest.dependencyByName TeleportPackage = .ok updateTel →
      venv.parseSemVer updateTel.version = .ok uTelv →
      systemNeedsUpdate venv profile installed updateApp =
        .ok (iRTv.lessThan uRTv, iTelv.lessThan uTelv))
    ∧ (∀ v : SemVer, v.lessThan v = false)
    ∧ (∀ a b : SemVer, a.lessThan b = true → b.lessThan a = false)
    ∧ (∀ e, installed.manifest.nodeProfileByName profile = .error e →
        systemNeedsUpdate venv profile installed updateApp = .error (traceWrap e))
    ∧ (∀ installedProfile updateProfile updateRT e,
        installed.manifest.nodeProfileByName profile = .ok installedProfile →
        updateApp.manifest.nodeProfileByName profile = .ok updateProfile →
        updateApp.manifest.runtimePackage updateProfile = .ok updateRT →
        venv.parseSemVer updateRT.version = .error e →
        systemNeedsUpdate venv profile installed updateApp = .error (traceWrap e)) := by
  refine ⟨?_, semVer_lessThan_irrefl, semVer_lessThan_asymm, ?_, ?_⟩
  · intro installedProfile updateProfile updateRT installedRT installedTel updateTel
      uRTv iRTv iTelv uTelv h1 h2 h3 h4 h5 h6 h7 h8 h9 h10
    simp [systemNeedsUpdate, wrapE, h1, h2, h3, h4, h5, h6, h7, h8, h9, h10,
      Bind.bind, Except.bind, Functor.map, Except.map, pure, Except.pure]
  · intro e he
    simp [systemNeedsUpdate, wrapE, he, Bind.bind, Except.bind, Functor.map, Except.map]
  · intro installedProfile updateProfile updateRT e h1 h2 h3 he
    simp [systemNeedsUpdate, wrapE, h1, h2, h3, he, Bind.bind, Except.bind,
      Functor.map, Except.map]

/-- C9 witness: concrete applications where the runtime goes 1.0.0 → 2.0.0
and teleport 3.0.0 → 3.1.0 report both updates. -/
theorem systemNeedsUpdate_spec_witness :
    systemNeedsUpdate venvW "node" appInstalledW appUpdateW = .ok (true, true) :=
  (systemNeedsUpdate_spec venvW "node" appInstalledW appUpdateW).1
    { name := "node" } { name := "node" } locPlanetNewW locPlanetOldW locTeleOldW locTeleNewW
    { major := 2, minor := 0, patch := 0, preRelease := "" }
    { major := 1, minor := 0, patch := 0, preRelease := "" }
    { major := 3, minor := 0, patch := 0, preRelease := "" }
    { major := 3, minor := 1, patch := 0, preRelease := "" }
    rfl rfl rfl rfl rfl rfl rfl rfl rfl rfl

/-- C10: getRuntimePackage returns the manifest's runtime package for the
profile when that lookup succeeds; a non-NotFound error from the primary
lookup is propagated without attempting the fallback; on NotFound it falls
back to the legacy planet package chosen by cluster role (the legacy node
package for the node role, otherwise the legacy master package), and
reports NotFound exactly when that legacy package is also absent from the
manifest's dependencies. -/
theorem getRuntimePackage_spec (m : Manifest) (profile : NodeProfile) (clusterRole : String) :
    (∀ rp, m.runtimePackage profile = .ok rp →
      getRuntimePackage m profile clusterRole = .ok rp)
    ∧ (∀ e, m.runtimePackage profile = .error e → e.isNotFound = false →
        getRuntimePackage m profile clusterRole = .error (traceWrap e)
          ∧ (traceWrap e).isNotFound = false)
    ∧ (∀ e, m.runtimePackage profile = .error e → e.isNotFound = true →
        (∀ rp, m.dependencyByName (legacyRuntimePackageName clusterRole) = .ok rp →
          getRuntimePackage m profile clusterRole = .ok rp)
        ∧ (∀ e2, m.dependencyByName (legacyRuntimePackageName clusterRole) = .error e2 →
          ∃ msg, getRuntimePackage m profile clusterRole = .error (.notFound msg)))
    ∧ legacyRuntimePackageName ServiceRoleNode = LegacyPlanetNode.name
    ∧ (clusterRole ≠ ServiceRoleNode →
        legacyRuntimePackageName clusterRole = LegacyPlanetMaster.name)
    ∧ (∀ e, getRuntimePackage m profile clusterRole = .error e → e.isNotFound = true →
        (∃ e1, m.runtimePackage profile = .error e1 ∧ e1.isNotFound = true)
        ∧ (∃ e2, m.dependencyByName (legacyRuntimePackageName clusterRole) = .error e2)) := by
  refine ⟨?_, ?_, ?_, rfl, ?_, ?_⟩
  · intro rp h
    simp [getRuntimePackage, h]
  · intro e h hnf
    refine ⟨?_, by simp [traceWrap, hnf]⟩
    simp [getRuntimePackage, h, hnf]
  · intro e h hnf
    constructor
    · intro rp hdep
      simp [getRuntimePackage, h, hnf, hdep]
    · intro e2 hdep
      refine ⟨"runtime package for profile " ++ profile.name ++ " (cluster role " ++
        clusterRole ++ ") not found in manifest", ?_⟩
      simp [getRuntimePackage, h, hnf, hdep]
  · intro hrole
    simp [legacyRuntimePackageName, hrole]
  · intro e hres hnf
    rcases hrt : m.runtimePackage profile with e1 | rp
    · by_cases h1 : e1.isNotFound = true
      · rcases hdep : m.dependencyByName (legacyRuntimePackageName clusterRole) with e2 | rp
        · exact ⟨⟨e1, rfl, h1⟩, ⟨e2, rfl⟩⟩
        · simp [getRuntimePackage, hrt, h1, hdep] at hres
      · have h1f : e1.isNotFound = false := by
          cases hx : e1.isNotFound
          · rfl
          · exact absurd hx h1
        have hval : getRuntimePackage m profile clusterRole = .error (traceWrap e1) := by
          simp [getRuntimePackage, hrt, h1f]
        rw [hval] at hres
        injection hres with hinj
        have hcontra : e1.isNotFound = true := by
          have hh := hnf
          rw [← hinj] at hh
          simpa [traceWrap] using hh
        rw [h1f] at hcontra
        exact Bool.noConfusion hcontra
    · simp [getRuntimePackage, hrt] at hres

/-- C10 witness: a manifest without a modern runtime package but with the
legacy planet-master dependency yields that legacy package for the master
role. -/
theorem getRuntimePackage_spec_witness :
    getRuntimePackage manifestLegacyW profileDbW ServiceRoleMaster = .ok locPlanetOldW :=
  ((getRuntimePackage_spec manifestLegacyW profileDbW ServiceRoleMaster).2.2.1
    (.notFound "runtime package not defined") rfl rfl).1 locPlanetOldW rfl
